import Mathlib

/-!
Verification of the openai-rust client library against its specification.

The repository ships `src/lib.rs` (the `Client` facade: URL construction,
path resolution, status branching, the forced streaming flag, and the
image-payload projection) together with its integration tests.  The
endpoint modules it declares (`chat`, `completions`, `embeddings`,
`images`, `models`) — in particular the server-sent-event streaming
decoder `chat::stream::ChatCompletionChunkStream` — are not part of the
shipped sources, so those components are modelled here from the
specification (marked `Modelled from the spec:` on each definition).

Bytes of the wire protocol are modelled as `List Char` (the protocol is
textual server-sent events); transport chunks are elements of a
`List (List Char)`.
-/

namespace OpenAIRust

/-- Modelled from the spec: one choice delta of a streaming chunk
"each delta optionally carrying a content fragment" (§3);
the `chat::stream` module is not among the shipped sources. -/
structure Delta where
  content : Option String
deriving DecidableEq, Repr

/-- Modelled from the spec: a single choice of a `ChatCompletionChunk`,
wrapping its delta (§3). -/
structure ChunkChoice where
  delta : Delta
deriving DecidableEq, Repr

/-- Modelled from the spec: "ChatCompletionChunk: one decoded unit of a
streaming response — contains zero or more choice deltas" (§3). -/
structure ChatCompletionChunk where
  choices : List ChunkChoice
deriving DecidableEq, Repr

/-! ### JSON-subset payload decoding

Modelled from the spec: "A JSON payload is deserialized into a
ChatCompletionChunk" (§4.2).  The deserializer itself is the external
serde collaborator; it is modelled as a concrete recursive-descent
parser for the JSON shape of a chunk payload. -/

/-- Modelled from the spec: JSON whitespace skipping of the payload
deserializer. -/
def skipWs : List Char → List Char
  | [] => []
  | c :: rest =>
    if c = ' ' ∨ c = '\n' ∨ c = '\t' ∨ c = '\r' then skipWs rest else c :: rest

/-- Modelled from the spec: consume an expected literal token of the
payload deserializer, returning the remaining input. -/
def expectLit : List Char → List Char → Option (List Char)
  | [], s => some s
  | _ :: _, [] => none
  | p :: ps, c :: cs => if c = p then expectLit ps cs else none

/-- Modelled from the spec: body of a JSON string (after the opening
quote), up to the closing quote; escape sequences are outside the
modelled subset. -/
def parseStringBody : List Char → Option (List Char × List Char)
  | [] => none
  | c :: rest =>
    if c = '"' then some ([], rest)
    else if c = '\\' then none
    else
      match parseStringBody rest with
      | some (s, r) => some (c :: s, r)
      | none => none

/-- Modelled from the spec: a JSON `delta` object, either empty or
carrying a `content` string fragment (§3). -/
def parseDelta (s : List Char) : Option (Delta × List Char) :=
  match expectLit (['{']) (skipWs s) with
  | none => none
  | some r1 =>
    let r2 := skipWs r1
    match expectLit (['}']) r2 with
    | some r3 => some (⟨none⟩, r3)
    | none =>
      match expectLit (("\"content\"").toList) r2 with
      | none => none
      | some r3 =>
        match expectLit ([':']) (skipWs r3) with
        | none => none
        | some r4 =>
          match expectLit (['"']) (skipWs r4) with
          | none => none
          | some r5 =>
            match parseStringBody r5 with
            | none => none
            | some (str, r6) =>
              match expectLit (['}']) (skipWs r6) with
              | none => none
              | some r7 => some (⟨some (String.mk str)⟩, r7)

/-- Modelled from the spec: one JSON choice object of a chunk payload,
wrapping a `delta` object. -/
def parseChunkChoice (s : List Char) : Option (ChunkChoice × List Char) :=
  match expectLit (['{']) (skipWs s) with
  | none => none
  | some r1 =>
    match expectLit (("\"delta\"").toList) (skipWs r1) with
    | none => none
    | some r2 =>
      match expectLit ([':']) (skipWs r2) with
      | none => none
      | some r3 =>
        match parseDelta r3 with
        | none => none
        | some (d, r4) =>
          match expectLit (['}']) (skipWs r4) with
          | none => none
          | some r5 => some (⟨d⟩, r5)

/-- Modelled from the spec: the elements of the JSON `choices` array of
a chunk payload (fuelled recursion over the comma-separated list). -/
def parseChunkChoices (fuel : Nat) (s : List Char) :
    Option (List ChunkChoice × List Char) :=
  match fuel with
  | 0 => none
  | fuel + 1 =>
    match parseChunkChoice s with
    | none => none
    | some (c, r) =>
      match skipWs r with
      | ',' :: r2 =>
        match parseChunkChoices fuel r2 with
        | none => none
        | some (cs, rr) => some (c :: cs, rr)
      | ']' :: r2 => some ([c], r2)
      | _ => none

/-- Modelled from the spec: deserialization of a record payload into a
`ChatCompletionChunk` (§4.2); `none` is a deserialization failure. -/
def parseChunkPayload (s : List Char) : Option ChatCompletionChunk :=
  match expectLit (['{']) (skipWs s) with
  | none => none
  | some r1 =>
    match expectLit (("\"choices\"").toList) (skipWs r1) with
    | none => none
    | some r2 =>
      match expectLit ([':']) (skipWs r2) with
      | none => none
      | some r3 =>
        match expectLit (['[']) (skipWs r3) with
        | none => none
        | some r4 =>
          let body := skipWs r4
          let rest :=
            match body with
            | ']' :: r5 => some (([] : List ChunkChoice), r5)
            | _ => parseChunkChoices (s.length + 1) body
          match rest with
          | none => none
          | some (cs, r6) =>
            match expectLit (['}']) (skipWs r6) with
            | none => none
            | some r7 =>
              match skipWs r7 with
              | [] => some ⟨cs⟩
              | _ => none

/-! ### Streaming decoder (`chat::stream::ChatCompletionChunkStream`)

Modelled from the spec §4.2: an accumulator buffer, framing at the
double line-terminator, event-prefix stripping, the `[DONE]` sentinel,
and terminal Done / Error states. -/

/-- Modelled from the spec: the fixed event-prefix beginning every
record, per the example record `event: data\ndata: ...` (§8). -/
def eventHeader : List Char := ("event: data\ndata: ").toList

/-- Modelled from the spec: "Sentinel termination marker: the literal
payload signaling no further chunks will arrive" — `[DONE]` (§8). -/
def sentinel : List Char := ("[DONE]").toList

/-- Modelled from the spec: strip the fixed event-prefix from an
extracted record, leaving the payload (§4.2). -/
def stripHeader (r : List Char) : List Char :=
  if eventHeader.isPrefixOf r then r.drop eventHeader.length else r

/-- Modelled from the spec: outcome of the decode step on one extracted
record (§4.2). -/
inductive RecordResult where
  | chunk (c : ChatCompletionChunk)
  | done
  | fail
deriving DecidableEq, Repr

/-- Modelled from the spec: the decode step — strip the event-prefix,
recognise the sentinel, otherwise deserialize the JSON payload (§4.2). -/
def decodeRecord (r : List Char) : RecordResult :=
  let payload := stripHeader r
  if payload = sentinel then .done
  else
    match parseChunkPayload payload with
    | some c => .chunk c
    | none => .fail

/-- Modelled from the spec: the decoder states — Buffering (running),
Done, and Error are terminal (§4.2). -/
inductive Mode where
  | run
  | done
  | err
deriving DecidableEq, Repr

/-- Modelled from the spec: decoder state — the internal accumulator of
not-yet-framed bytes (kept most-recent-first), the mode, and the chunks
yielded so far in order (§3, §4.2). -/
structure DecState where
  mode : Mode
  rbuf : List Char
  out : List ChatCompletionChunk
deriving DecidableEq, Repr

/-- Modelled from the spec: the initial decoder state — empty
accumulator, nothing yielded. -/
def initState : DecState := ⟨.run, [], []⟩

/-- Modelled from the spec: appending one arrived byte to the
accumulator and framing — when the accumulator now ends with the double
line-terminator, the complete record in front of it is extracted and
decoded; a sentinel moves to Done, a deserialization failure to Error,
otherwise the chunk is yielded; terminal modes ignore input (§4.2). -/
def charStep (st : DecState) (c : Char) : DecState :=
  match st.mode with
  | .done => st
  | .err => st
  | .run =>
    if c = '\n' ∧ st.rbuf.head? = some ('\n') then
      match decodeRecord st.rbuf.tail.reverse with
      | .done => { st with mode := .done, rbuf := [] }
      | .chunk ch => { st with rbuf := [], out := st.out ++ [ch] }
      | .fail => { st with mode := .err, rbuf := [] }
    else { st with rbuf := c :: st.rbuf }

/-- Modelled from the spec: "Newly arrived bytes are appended to an
internal accumulator" and framed (§4.2) — one transport chunk is fed
byte by byte. -/
def feedChunk (st : DecState) (chunk : List Char) : DecState :=
  chunk.foldl charStep st

/-- Modelled from the spec: the decoder run over the whole lazy sequence
of transport chunks delivered by the transport (§4.2). -/
def runDecoder (chunks : List (List Char)) : DecState :=
  chunks.foldl feedChunk initState

/-! ### Reference framing

A specification-side description of framing: split the total byte
sequence at each (leftmost-first) double line-terminator into complete
records plus a trailing partial record, then decode the records in
order, stopping at the first sentinel or failure. -/

/-- Split a byte sequence at the first double line-terminator: the
complete record before it and the remainder after it. -/
def splitFirstDD : List Char → Option (List Char × List Char)
  | [] => none
  | c :: rest =>
    if c = '\n' ∧ rest.head? = some '\n' then
      some ([], rest.tail)
    else
      match splitFirstDD rest with
      | some (a, b) => some (c :: a, b)
      | none => none

/-- Reference framing helper: fuelled recursion splitting off complete
records at each leftmost double line-terminator. -/
def framesOfAux : Nat → List Char → List (List Char) × List Char
  | 0, s => ([], s)
  | fuel + 1, s =>
    match splitFirstDD s with
    | none => ([], s)
    | some (a, b) =>
      let p := framesOfAux fuel b
      (a :: p.1, p.2)

/-- Reference framing: the list of complete records of a byte sequence
(leftmost-first, non-overlapping double line-terminators) and the
trailing not-yet-complete partial record. -/
def framesOf (s : List Char) : List (List Char) × List Char :=
  framesOfAux s.length s

/-- Reference decoding of a list of complete records in order: each
record yields at most one chunk; the first sentinel ends the sequence
cleanly and the first deserialization failure ends it in error; later
records are not decoded. -/
def processRecords : List (List Char) → List ChatCompletionChunk × Mode
  | [] => ([], .run)
  | r :: rs =>
    match decodeRecord r with
    | .chunk c =>
      let p := processRecords rs
      (c :: p.1, p.2)
    | .done => ([], .done)
    | .fail => ([], .err)

/-- Whether a byte sequence contains the double line-terminator (two
adjacent newline characters) anywhere. -/
def hasDD : List Char → Bool
  | [] => false
  | c :: rest => ((c == '\n') && (rest.head? == some ('\n'))) || hasDD rest

/-- Modelled from the spec: a well-formed wire record carrying payload
`p` — the fixed event-prefix, the payload line, and the blank-line
terminator (§6). -/
def encodeRecord (p : List Char) : List Char :=
  eventHeader ++ p ++ [('\n'), ('\n')]

/-! ### Client facade (src/lib.rs)

URL handling, path resolution, the streaming-flag override, response
status branching and the image-payload projection are embedded from
`src/lib.rs`.  The `reqwest::Url` type is an external collaborator,
modelled by its components; `set_path` replaces the whole path. -/

/-- Modelled from the spec: the external `reqwest::Url` collaborator —
scheme, host, optional port and path of a parsed URL. -/
structure Url where
  scheme : String
  host : String
  port : Option Nat
  path : String
deriving DecidableEq, Repr

/-- Modelled from the spec: `reqwest::Url::set_path` — replaces the
entire path component of the URL, leaving scheme, host and port
untouched. -/
def Url.setPath (u : Url) (p : String) : Url :=
  { u with path := p }

/-- Embedded from src/lib.rs lines 9–12: the global default base URL
`https://api.openai.com/v1/models`, parsed into its components. -/
def DEFAULT_BASE_URL : Url :=
  ⟨"https", "api.openai.com", none, "/v1/models"⟩

/-- Embedded from src/lib.rs lines 14–19: the client owns the bearer key
and the base URL (the transport is the external collaborator). -/
structure Client where
  key : String
  base_url : Url
deriving DecidableEq, Repr

/-- Embedded from src/lib.rs lines 31–38: `Client::new` uses the default
base URL. -/
def Client.new (api_key : String) : Client :=
  ⟨api_key, DEFAULT_BASE_URL⟩

/-- Embedded from src/lib.rs lines 50–58: `Client::new_with_base_url`
uses the caller-supplied base URL. -/
def Client.new_with_base_url (api_key : String) (base_url : Url) : Client :=
  ⟨api_key, base_url⟩

/-- Embedded from src/lib.rs lines 88–89: the request URL of
`list_models` — the base URL with its path replaced by the override or
the default `/v1/models`. -/
def list_models_url (c : Client) (opt_url_path : Option String) : Url :=
  c.base_url.setPath (opt_url_path.getD ("/v1/models"))

/-- Embedded from src/lib.rs lines 129–130: the request URL of
`create_chat` (default path `/v1/chat/completions`). -/
def create_chat_url (c : Client) (opt_url_path : Option String) : Url :=
  c.base_url.setPath (opt_url_path.getD ("/v1/chat/completions"))

/-- Embedded from src/lib.rs lines 179–180: the request URL of
`create_chat_stream` (default path `/v1/chat/completions`). -/
def create_chat_stream_url (c : Client) (opt_url_path : Option String) : Url :=
  c.base_url.setPath (opt_url_path.getD ("/v1/chat/completions"))

/-- Embedded from src/lib.rs lines 223–224: the request URL of
`create_completion` (default path `/v1/completions`). -/
def create_completion_url (c : Client) (opt_url_path : Option String) : Url :=
  c.base_url.setPath (opt_url_path.getD ("/v1/completions"))

/-- Embedded from src/lib.rs lines 261–262: the request URL of
`create_embeddings` (default path `/v1/embeddings`). -/
def create_embeddings_url (c : Client) (opt_url_path : Option String) : Url :=
  c.base_url.setPath (opt_url_path.getD ("/v1/embeddings"))

/-- Embedded from src/lib.rs lines 285–286: the request URL of
`create_image` (default path `/v1/images/generations`). -/
def create_image_url (c : Client) (opt_url_path : Option String) : Url :=
  c.base_url.setPath (opt_url_path.getD ("/v1/images/generations"))

/-- Modelled from the spec: a chat message — role and content (§3); the
`chat` module is not among the shipped sources. -/
structure Message where
  role : String
  content : String
deriving DecidableEq, Repr

/-- Modelled from the spec: ChatArguments — model identifier, ordered
messages, optional generation parameters and the streaming flag (§3);
the `chat` module is not among the shipped sources. -/
structure ChatArguments where
  model : String
  messages : List Message
  max_tokens : Option Nat
  stream : Option Bool
deriving DecidableEq, Repr

/-- Modelled from the spec: `ChatArguments::new` per the doctests of
src/lib.rs — only model and messages, optional fields absent. -/
def ChatArguments.new (model : String) (messages : List Message) : ChatArguments :=
  ⟨model, messages, none, none⟩

/-- Modelled from the spec: an outgoing chat POST request — effective
URL, bearer credential and JSON-serialized arguments body (§4.1). -/
structure ChatRequest where
  url : Url
  bearer : String
  body : ChatArguments
deriving DecidableEq, Repr

/-- Embedded from src/lib.rs lines 129–137: the request built by
`create_chat` — resolved path, bearer key, the caller's arguments
unchanged. -/
def create_chat_request (c : Client) (args : ChatArguments)
    (opt_url_path : Option String) : ChatRequest :=
  ⟨create_chat_url c opt_url_path, c.key, args⟩

/-- Embedded from src/lib.rs lines 179–192: the request built by
`create_chat_stream` — resolved path, bearer key, and the arguments
with the streaming flag forced to `Some(true)` (lines 182–184). -/
def create_chat_stream_request (c : Client) (args : ChatArguments)
    (opt_url_path : Option String) : ChatRequest :=
  ⟨create_chat_stream_url c opt_url_path, c.key, { args with stream := some true }⟩

/-! ### Typed response decoding (the serde collaborator)

Response types of the endpoint modules absent from the shipped sources,
modelled from the spec (§3, §6), with concrete JSON-subset decoders
standing for the external serde deserializer. -/

/-- Modelled from the spec: model metadata of the models endpoint —
an identifier (§6). -/
structure Model where
  id : String
deriving DecidableEq, Repr

/-- Modelled from the spec: the list-models response body wrapping its
`data` array (the `models` module is not among the shipped sources). -/
structure ListModelsResponse where
  data : List Model
deriving DecidableEq, Repr

/-- Modelled from the spec: one choice of a non-streaming chat
completion, carrying its message (§6). -/
structure ChatChoice where
  message : Message
deriving DecidableEq, Repr

/-- Modelled from the spec: the non-streaming chat completion response —
a choices array (§6). -/
structure ChatCompletion where
  choices : List ChatChoice
deriving DecidableEq, Repr

/-- Modelled from the spec: one choice of a text completion response,
carrying its text (§6). -/
structure CompletionChoice where
  text : String
deriving DecidableEq, Repr

/-- Modelled from the spec: the text completion response — a choices
array (§6). -/
structure CompletionResponse where
  choices : List CompletionChoice
deriving DecidableEq, Repr

/-- Modelled from the spec: one embedding result — its vector, the
numbers kept textually (floating point is outside the embedding). -/
structure EmbeddingData where
  embedding : List String
deriving DecidableEq, Repr

/-- Modelled from the spec: the embeddings response — a `data` array of
embedding results (§6). -/
structure EmbeddingsResponse where
  data : List EmbeddingData
deriving DecidableEq, Repr

/-- Modelled from the spec: "Polymorphic image result variant (URL vs.
embedded-data): a tagged union with two variants, each carrying a string
payload" (§9). -/
inductive ImageObject where
  | url (s : String)
  | base64JSON (s : String)
deriving DecidableEq, Repr

/-- Modelled from the spec: the image generation response — a `data`
array of image objects (§6). -/
structure ImageResponse where
  data : List ImageObject
deriving DecidableEq, Repr

/-- Modelled from the spec: elements of a JSON array, comma-separated,
up to the closing bracket (fuelled recursion; generic in the element
deserializer). -/
def parseElems {α : Type} (elem : List Char → Option (α × List Char)) :
    Nat → List Char → Option (List α × List Char)
  | 0, _ => none
  | fuel + 1, s =>
    match elem s with
    | none => none
    | some (a, r) =>
      match skipWs r with
      | ',' :: r2 =>
        match parseElems elem fuel r2 with
        | none => none
        | some (as, rr) => some (a :: as, rr)
      | ']' :: r2 => some ([a], r2)
      | _ => none

/-- Modelled from the spec: a JSON array, possibly empty (generic in the
element deserializer). -/
def parseArray {α : Type} (elem : List Char → Option (α × List Char))
    (fuel : Nat) (s : List Char) : Option (List α × List Char) :=
  match expectLit (['[']) (skipWs s) with
  | none => none
  | some r1 =>
    match expectLit ([']']) (skipWs r1) with
    | some r2 => some ([], r2)
    | none => parseElems elem fuel (skipWs r1)

/-- Modelled from the spec: a JSON object with a single string field of
the given key. -/
def parseStrFieldObj (key : List Char) (s : List Char) :
    Option (String × List Char) :=
  match expectLit (['\x7b']) (skipWs s) with
  | none => none
  | some r1 =>
    match expectLit ('"' :: key ++ ['"']) (skipWs r1) with
    | none => none
    | some r2 =>
      match expectLit ([':']) (skipWs r2) with
      | none => none
      | some r3 =>
        match expectLit (['"']) (skipWs r3) with
        | none => none
        | some r4 =>
          match parseStringBody r4 with
          | none => none
          | some (str, r5) =>
            match expectLit (['\x7d']) (skipWs r5) with
            | none => none
            | some r6 => some (String.mk str, r6)

/-- Modelled from the spec: a whole JSON response body that is one
object with a single array field of the given key; trailing content
after the object is a decode failure. -/
def parseArrFieldObj {α : Type} (key : List Char)
    (elem : List Char → Option (α × List Char)) (s : List Char) :
    Option (List α) :=
  match expectLit (['\x7b']) (skipWs s) with
  | none => none
  | some r1 =>
    match expectLit ('"' :: key ++ ['"']) (skipWs r1) with
    | none => none
    | some r2 =>
      match expectLit ([':']) (skipWs r2) with
      | none => none
      | some r3 =>
        match parseArray elem (s.length + 1) r3 with
        | none => none
        | some (xs, r4) =>
          match expectLit (['\x7d']) (skipWs r4) with
          | none => none
          | some r5 =>
            match skipWs r5 with
            | [] => some xs
            | _ => none

/-- Modelled from the spec: deserializer of one model object of the
list-models response. -/
def parseModelElem (s : List Char) : Option (Model × List Char) :=
  match parseStrFieldObj (("id").toList) s with
  | none => none
  | some (x, r) => some (⟨x⟩, r)

/-- Modelled from the spec: deserializer of one text completion
choice. -/
def parseCompletionChoiceElem (s : List Char) :
    Option (CompletionChoice × List Char) :=
  match parseStrFieldObj (("text").toList) s with
  | none => none
  | some (x, r) => some (⟨x⟩, r)

/-- Modelled from the spec: deserializer of one image object — a `url`
variant or a `b64_json` variant (§9). -/
def parseImageObjectElem (s : List Char) : Option (ImageObject × List Char) :=
  match parseStrFieldObj (("url").toList) s with
  | some (x, r) => some (.url x, r)
  | none =>
    match parseStrFieldObj (("b64_json").toList) s with
    | some (x, r) => some (.base64JSON x, r)
    | none => none

/-- Modelled from the spec: characters a textual JSON number may use. -/
def isNumChar (c : Char) : Bool :=
  c.isDigit || c = '-' || c = '+' || c = '.' || c = 'e' || c = 'E'

/-- Modelled from the spec: one textual JSON number of an embedding
vector. -/
def parseNumberElem (s : List Char) : Option (String × List Char) :=
  let t := skipWs s
  match t.takeWhile isNumChar with
  | [] => none
  | pre => some (String.mk pre, t.dropWhile isNumChar)

/-- Modelled from the spec: deserializer of one embedding result — an
object with an `embedding` array of numbers. -/
def parseEmbeddingElem (s : List Char) : Option (EmbeddingData × List Char) :=
  match expectLit (['\x7b']) (skipWs s) with
  | none => none
  | some r1 =>
    match expectLit (("\"embedding\"").toList) (skipWs r1) with
    | none => none
    | some r2 =>
      match expectLit ([':']) (skipWs r2) with
      | none => none
      | some r3 =>
        match parseArray parseNumberElem (s.length + 1) r3 with
        | none => none
        | some (xs, r4) =>
          match expectLit (['\x7d']) (skipWs r4) with
          | none => none
          | some r5 => some (⟨xs⟩, r5)

/-- Modelled from the spec: deserializer of one message object — `role`
and `content` string fields. -/
def parseMessageObj (s : List Char) : Option (Message × List Char) :=
  match expectLit (['\x7b']) (skipWs s) with
  | none => none
  | some r1 =>
    match expectLit (("\"role\"").toList) (skipWs r1) with
    | none => none
    | some r2 =>
      match expectLit ([':']) (skipWs r2) with
      | none => none
      | some r3 =>
        match expectLit (['"']) (skipWs r3) with
        | none => none
        | some r4 =>
          match parseStringBody r4 with
          | none => none
          | some (role, r5) =>
            match expectLit ([',']) (skipWs r5) with
            | none => none
            | some r6 =>
              match expectLit (("\"content\"").toList) (skipWs r6) with
              | none => none
              | some r7 =>
                match expectLit ([':']) (skipWs r7) with
                | none => none
                | some r8 =>
                  match expectLit (['"']) (skipWs r8) with
                  | none => none
                  | some r9 =>
                    match parseStringBody r9 with
                    | none => none
                    | some (content, r10) =>
                      match expectLit (['\x7d']) (skipWs r10) with
                      | none => none
                      | some r11 =>
                        some (⟨String.mk role, String.mk content⟩, r11)

/-- Modelled from the spec: deserializer of one non-streaming chat
choice — an object wrapping a `message` object. -/
def parseChatChoiceElem (s : List Char) : Option (ChatChoice × List Char) :=
  match expectLit (['\x7b']) (skipWs s) with
  | none => none
  | some r1 =>
    match expectLit (("\"message\"").toList) (skipWs r1) with
    | none => none
    | some r2 =>
      match expectLit ([':']) (skipWs r2) with
      | none => none
      | some r3 =>
        match parseMessageObj r3 with
        | none => none
        | some (m, r4) =>
          match expectLit (['\x7d']) (skipWs r4) with
          | none => none
          | some r5 => some (⟨m⟩, r5)

/-- Modelled from the spec: serde decode of the list-models response
body. -/
def decodeListModels (s : String) : Option ListModelsResponse :=
  match parseArrFieldObj (("data").toList) parseModelElem s.toList with
  | none => none
  | some xs => some ⟨xs⟩

/-- Modelled from the spec: serde decode of the chat completion response
body. -/
def decodeChatCompletion (s : String) : Option ChatCompletion :=
  match parseArrFieldObj (("choices").toList) parseChatChoiceElem s.toList with
  | none => none
  | some xs => some ⟨xs⟩

/-- Modelled from the spec: serde decode of the text completion response
body. -/
def decodeCompletionResponse (s : String) : Option CompletionResponse :=
  match parseArrFieldObj (("choices").toList) parseCompletionChoiceElem s.toList with
  | none => none
  | some xs => some ⟨xs⟩

/-- Modelled from the spec: serde decode of the embeddings response
body. -/
def decodeEmbeddingsResponse (s : String) : Option EmbeddingsResponse :=
  match parseArrFieldObj (("data").toList) parseEmbeddingElem s.toList with
  | none => none
  | some xs => some ⟨xs⟩

/-- Modelled from the spec: serde decode of the image generation
response body. -/
def decodeImageResponse (s : String) : Option ImageResponse :=
  match parseArrFieldObj (("data").toList) parseImageObjectElem s.toList with
  | none => none
  | some xs => some ⟨xs⟩

/-! ### Response handling (status branching of src/lib.rs) -/

/-- Modelled from the spec: the transport's response — HTTP status code
and text body (§6). -/
structure HttpResponse where
  status : Nat
  body : String
deriving DecidableEq, Repr

/-- Modelled from the spec: errors a call surfaces — the raw response
body of a non-success status (`anyhow!(res.text())`), or a JSON decode
failure on a success status (§7). -/
inductive CallError where
  | apiError (body : String)
  | decodeError
deriving DecidableEq, Repr

/-- Embedded from src/lib.rs lines 98–102: `list_models` on a response —
on status 200 decode the body and return its `data` vector, otherwise
the raw body text as the error. -/
def list_models_handle (res : HttpResponse) :
    Except CallError (List Model) :=
  if res.status = 200 then
    match decodeListModels res.body with
    | some r => .ok r.data
    | none => .error .decodeError
  else .error (.apiError res.body)

/-- Embedded from src/lib.rs lines 140–144: `create_chat` on a response —
on status 200 decode the body, otherwise the raw body text as the
error. -/
def create_chat_handle (res : HttpResponse) :
    Except CallError ChatCompletion :=
  if res.status = 200 then
    match decodeChatCompletion res.body with
    | some r => .ok r
    | none => .error .decodeError
  else .error (.apiError res.body)

/-- Embedded from src/lib.rs lines 194–200: `create_chat_stream` on a
response — on status 200 hand the byte stream to the streaming decoder,
otherwise the raw body text as the error. -/
def create_chat_stream_handle (res : HttpResponse)
    (byteChunks : List (List Char)) : Except CallError DecState :=
  if res.status = 200 then .ok (runDecoder byteChunks)
  else .error (.apiError res.body)

/-- Embedded from src/lib.rs lines 234–238: `create_completion` on a
response. -/
def create_completion_handle (res : HttpResponse) :
    Except CallError CompletionResponse :=
  if res.status = 200 then
    match decodeCompletionResponse res.body with
    | some r => .ok r
    | none => .error .decodeError
  else .error (.apiError res.body)

/-- Embedded from src/lib.rs lines 272–276: `create_embeddings` on a
response. -/
def create_embeddings_handle (res : HttpResponse) :
    Except CallError EmbeddingsResponse :=
  if res.status = 200 then
    match decodeEmbeddingsResponse res.body with
    | some r => .ok r
    | none => .error .decodeError
  else .error (.apiError res.body)

/-- Embedded from src/lib.rs lines 302–305: the per-object projection of
`create_image` — both variants yield their inner string, the tag is
discarded. -/
def imagePayload : ImageObject → String
  | .url s => s
  | .base64JSON s => s

/-- Embedded from src/lib.rs lines 296–309: `create_image` on a
response — on status 200 decode the body and map every image object to
its inner payload string, otherwise the raw body text as the error. -/
def create_image_handle (res : HttpResponse) :
    Except CallError (List String) :=
  if res.status = 200 then
    match decodeImageResponse res.body with
    | some r => .ok (r.data.map imagePayload)
    | none => .error .decodeError
  else .error (.apiError res.body)

/-! ### Reference encoding of a chat completion body

Used to state the round-trip property: encoding a known structure and
decoding it back yields an equal value. -/

/-- Reference encoding of a JSON string literal (no escape sequences;
see `plainStr`). -/
def encodeStringLit (s : String) : List Char :=
  ['"'] ++ s.toList ++ ['"']

/-- Reference encoding of a message object, mirroring the wire shape
`parseMessageObj` reads. -/
def encodeMessageChars (m : Message) : List Char :=
  ['\x7b'] ++ ("\"role\"").toList ++ [':'] ++ encodeStringLit m.role ++
    [','] ++ ("\"content\"").toList ++ [':'] ++ encodeStringLit m.content ++
    ['\x7d']

/-- Reference encoding of one chat choice object. -/
def encodeChatChoiceChars (c : ChatChoice) : List Char :=
  ['\x7b'] ++ ("\"message\"").toList ++ [':'] ++ encodeMessageChars c.message ++
    ['\x7d']

/-- Reference encoding of the comma-separated choices array elements. -/
def encodeChatChoicesChars : List ChatChoice → List Char
  | [] => []
  | [c] => encodeChatChoiceChars c
  | c :: rest => encodeChatChoiceChars c ++ [','] ++ encodeChatChoicesChars rest

/-- Reference encoding of a whole chat completion response body. -/
def encodeChatCompletion (v : ChatCompletion) : String :=
  String.mk (['\x7b'] ++ ('"' :: ("choices").toList ++ ['"']) ++ [':'] ++
    ['['] ++ encodeChatChoicesChars v.choices ++ [']'] ++ ['\x7d'])

/-- Strings encodable without escape sequences: no quote, no
backslash. -/
def plainStr (s : String) : Prop :=
  ∀ c ∈ s.toList, c ≠ '"' ∧ c ≠ '\\'

/-- Literal tokens whose first character is not JSON whitespace (every
literal of the wire format qualifies). -/
def litOk (l : List Char) : Bool :=
  match l with
  | [] => false
  | c :: _ => !((c = ' ') || (c = '\n') || (c = '\t') || (c = '\r'))

/-- Well-formed chat completion values: every role and content string is
plainly encodable. -/
def ChatCompletion.wf (v : ChatCompletion) : Prop :=
  ∀ ch ∈ v.choices, plainStr ch.message.role ∧ plainStr ch.message.content

/-! ### Proofs -/

theorem splitFirstDD_length {s a b : List Char}
    (h : splitFirstDD s = some (a, b)) : b.length + 2 + a.length = s.length := by
  induction s generalizing a b with
  | nil => simp [splitFirstDD] at h
  | cons c rest ih =>
    rw [splitFirstDD] at h
    split at h
    · rename_i hc
      obtain ⟨hc1, hc2⟩ := hc
      cases rest with
      | nil => simp at hc2
      | cons d rest2 =>
        simp at hc2
        simp at h
        obtain ⟨ha, hb⟩ := h
        subst ha hb
        simp [List.length]
    · rename_i hc
      cases hsr : splitFirstDD rest with
      | none => rw [hsr] at h; exact absurd h (by simp)
      | some p =>
        obtain ⟨a2, b2⟩ := p
        rw [hsr] at h
        simp at h
        obtain ⟨ha, hb⟩ := h
        subst ha hb
        have := ih hsr
        simp [List.length]
        omega

theorem hasDD_append_dd (xs ys : List Char) :
    hasDD (xs ++ ('\n') :: ('\n') :: ys) = true := by
  induction xs with
  | nil => simp [hasDD]
  | cons x rest ih => simp [hasDD, ih]

theorem charStep_noTrigger (st : DecState) (c : Char) (hm : st.mode = .run)
    (h : ¬(c = '\n' ∧ st.rbuf.head? = some ('\n'))) :
    charStep st c = { st with rbuf := c :: st.rbuf } := by
  obtain ⟨m, rbuf, out⟩ := st
  simp only [DecState.mode] at hm
  subst hm
  simp only [charStep]
  rw [if_neg h]

theorem charStep_trigger (st : DecState) (rest : List Char)
    (hm : st.mode = .run) (hb : st.rbuf = ('\n') :: rest) :
    charStep st ('\n') =
      match decodeRecord rest.reverse with
      | .done => { st with mode := .done, rbuf := [] }
      | .chunk ch => { st with rbuf := [], out := st.out ++ [ch] }
      | .fail => { st with mode := .err, rbuf := [] } := by
  obtain ⟨m, rbuf, out⟩ := st
  simp only [DecState.mode] at hm
  simp only [DecState.rbuf] at hb
  subst hm
  subst hb
  simp only [charStep]
  rw [if_pos (by simp)]
  simp only [List.tail_cons]

theorem foldl_terminal (L : List Char) (st : DecState)
    (h : st.mode = .done ∨ st.mode = .err) :
    List.foldl charStep st L = st := by
  induction L with
  | nil => rfl
  | cons c rest ih =>
    have hstep : charStep st c = st := by
      obtain ⟨m, rbuf, out⟩ := st
      simp only [DecState.mode] at h
      rcases h with h | h <;> subst h <;> rfl
    rw [List.foldl_cons, hstep, ih]

theorem foldl_noDD (L : List Char) : ∀ st : DecState, st.mode = .run →
    hasDD (st.rbuf.reverse ++ L) = false →
    List.foldl charStep st L = { st with rbuf := L.reverse ++ st.rbuf } := by
  induction L with
  | nil => intro st hm _; simp
  | cons c rest ih =>
    intro st hm h
    have hnt : ¬(c = '\n' ∧ st.rbuf.head? = some ('\n')) := by
      rintro ⟨hc, hhd⟩
      subst hc
      match hb : st.rbuf with
      | [] => rw [hb] at hhd; simp at hhd
      | x :: t =>
        rw [hb] at hhd
        simp at hhd
        subst hhd
        rw [hb] at h
        have : ('\n' :: t).reverse ++ '\n' :: rest =
            t.reverse ++ ('\n') :: ('\n') :: rest := by simp
        rw [this, hasDD_append_dd] at h
        exact absurd h (by simp)
    rw [List.foldl_cons, charStep_noTrigger st c hm hnt]
    rw [ih _ (by simpa using hm) (by simpa using h)]
    simp

theorem splitFirstDD_none {s : List Char} (h : splitFirstDD s = none) :
    hasDD s = false := by
  induction s with
  | nil => rfl
  | cons c rest ih =>
    rw [splitFirstDD] at h
    split at h
    · exact absurd h (by simp)
    · rename_i hc
      have hr : splitFirstDD rest = none := by
        cases hsr : splitFirstDD rest with
        | none => rfl
        | some p => obtain ⟨a, b⟩ := p; rw [hsr] at h; exact absurd h (by simp)
      rw [hasDD]
      simp only [Bool.or_eq_false_iff]
      constructor
      · by_cases h1 : c = '\n'
        · by_cases h2 : rest.head? = some ('\n')
          · exact absurd ⟨h1, h2⟩ hc
          · simp [h2]
        · simp [h1]
      · exact ih hr

theorem splitFirstDD_some {s a b : List Char} (h : splitFirstDD s = some (a, b)) :
    s = a ++ ('\n') :: ('\n') :: b ∧ hasDD (a ++ [('\n')]) = false := by
  induction s generalizing a b with
  | nil => simp [splitFirstDD] at h
  | cons c rest ih =>
    rw [splitFirstDD] at h
    split at h
    · rename_i hc
      obtain ⟨hc1, hc2⟩ := hc
      subst hc1
      cases rest with
      | nil => simp at hc2
      | cons y rest2 =>
        simp at hc2
        subst hc2
        simp at h
        obtain ⟨ha, hb⟩ := h
        subst ha
        subst hb
        exact ⟨rfl, by simp [hasDD]⟩
    · rename_i hc
      cases hsr : splitFirstDD rest with
      | none => rw [hsr] at h; exact absurd h (by simp)
      | some p =>
        obtain ⟨a2, b2⟩ := p
        rw [hsr] at h
        simp at h
        obtain ⟨ha, hb⟩ := h
        subst hb
        subst ha
        obtain ⟨hr1, hr2⟩ := ih hsr
        subst hr1
        refine ⟨by simp, ?_⟩
        rw [List.cons_append, hasDD]
        simp only [Bool.or_eq_false_iff]
        refine ⟨?_, hr2⟩
        by_cases h1 : c = '\n'
        · subst h1
          cases a2 with
          | nil =>
            exact absurd ⟨rfl, by simp⟩ hc
          | cons x t =>
            have hx : x ≠ '\n' := fun hxx => hc ⟨rfl, by simp [hxx]⟩
            simp [hx]
        · simp [h1]

theorem splitFirstDD_of_noDD {a : List Char} (b : List Char)
    (h : hasDD (a ++ [('\n')]) = false) :
    splitFirstDD (a ++ ('\n') :: ('\n') :: b) = some (a, b) := by
  induction a with
  | nil =>
    simp only [List.nil_append]
    rw [splitFirstDD]
    simp
  | cons x rest ih =>
    rw [List.cons_append, hasDD] at h
    simp only [Bool.or_eq_false_iff] at h
    obtain ⟨h1, h2⟩ := h
    rw [List.cons_append, splitFirstDD]
    have hc : ¬(x = '\n' ∧ (rest ++ ('\n') :: ('\n') :: b).head? = some ('\n')) := by
      rintro ⟨hx, hhd⟩
      subst hx
      cases rest with
      | nil => simp [List.head?] at h1
      | cons y t =>
        simp at hhd
        simp [hhd] at h1
    rw [if_neg hc, ih h2]

theorem framesOfAux_congr (f1 : Nat) : ∀ (f2 : Nat) (s : List Char),
    s.length ≤ f1 → s.length ≤ f2 → framesOfAux f1 s = framesOfAux f2 s := by
  induction f1 with
  | zero =>
    intro f2 s h1 _
    have hnil : s = [] := List.eq_nil_of_length_eq_zero (Nat.le_zero.mp h1)
    subst hnil
    cases f2 with
    | zero => rfl
    | succ k => rfl
  | succ m ih =>
    intro f2 s h1 h2
    cases f2 with
    | zero =>
      have hnil : s = [] := List.eq_nil_of_length_eq_zero (Nat.le_zero.mp h2)
      subst hnil
      rfl
    | succ k =>
      simp only [framesOfAux]
      cases hsp : splitFirstDD s with
      | none => rfl
      | some p =>
        obtain ⟨a, b⟩ := p
        have hb := splitFirstDD_length hsp
        simp only
        rw [ih k b (by omega) (by omega)]

theorem framesOf_eq_none (s : List Char) (h : splitFirstDD s = none) :
    framesOf s = ([], s) := by
  cases s with
  | nil => rfl
  | cons c rest =>
    simp only [framesOf, List.length_cons, framesOfAux]
    rw [h]

theorem framesOf_eq_some (s a b : List Char) (h : splitFirstDD s = some (a, b)) :
    framesOf s = (a :: (framesOf b).1, (framesOf b).2) := by
  cases s with
  | nil => simp [splitFirstDD] at h
  | cons c rest =>
    have hlen := splitFirstDD_length h
    simp only [List.length_cons] at hlen
    simp only [framesOf, List.length_cons, framesOfAux]
    rw [h]
    simp only
    rw [framesOfAux_congr rest.length b.length b (by omega) (le_refl _)]

theorem run_frames (n : Nat) : ∀ s : List Char, s.length ≤ n →
    ∀ out : List ChatCompletionChunk,
    List.foldl charStep ⟨.run, [], out⟩ s =
      (match processRecords (framesOf s).1 with
       | (cs, .run) => ⟨.run, (framesOf s).2.reverse, out ++ cs⟩
       | (cs, .done) => ⟨.done, [], out ++ cs⟩
       | (cs, .err) => ⟨.err, [], out ++ cs⟩) := by
  induction n with
  | zero =>
    intro s hs out
    have hnil : s = [] := List.eq_nil_of_length_eq_zero (Nat.le_zero.mp hs)
    subst hnil
    rw [framesOf_eq_none [] rfl]
    simp [processRecords]
  | succ m ih =>
    intro s hs out
    cases hsp : splitFirstDD s with
    | none =>
      rw [framesOf_eq_none s hsp]
      have hdd := splitFirstDD_none hsp
      rw [foldl_noDD s ⟨.run, [], out⟩ rfl (by simpa using hdd)]
      simp [processRecords]
    | some p =>
      obtain ⟨a, b⟩ := p
      obtain ⟨hs_eq, hnd⟩ := splitFirstDD_some hsp
      have hlen : b.length ≤ m := by
        have := splitFirstDD_length hsp
        omega
      rw [framesOf_eq_some s a b hsp]
      subst hs_eq
      have hsplit : a ++ ('\n') :: ('\n') :: b =
          (a ++ [('\n')]) ++ (('\n') :: b) := by simp
      rw [hsplit, List.foldl_append]
      rw [foldl_noDD (a ++ [('\n')]) ⟨.run, [], out⟩ rfl (by simpa using hnd)]
      rw [List.foldl_cons]
      rw [charStep_trigger ⟨.run, (a ++ [('\n')]).reverse ++ [], out⟩ a.reverse
        rfl (by simp)]
      simp only [List.reverse_reverse]
      cases hda : decodeRecord a with
      | chunk ch =>
        simp only [hda]
        rw [processRecords]
        simp only [hda]
        have hi := ih b hlen (out ++ [ch])
        simp only [DecState.out] at hi ⊢
        rw [hi]
        rcases hp : processRecords (framesOf b).1 with ⟨cs, mo⟩
        cases mo <;> simp
      | done =>
        simp only [hda]
        rw [foldl_terminal b _ (Or.inl rfl)]
        rw [processRecords]
        simp only [hda]
        simp
      | fail =>
        simp only [hda]
        rw [foldl_terminal b _ (Or.inr rfl)]
        rw [processRecords]
        simp only [hda]
        simp

theorem runDecoder_flatten (css : List (List Char)) :
    runDecoder css = List.foldl charStep initState css.flatten := by
  rw [List.foldl_flatten]
  rfl

theorem hasDD_append_noNl (xs : List Char) (hx : ('\n') ∉ xs) (l : List Char)
    (hl : hasDD l = false) : hasDD (xs ++ l) = false := by
  induction xs with
  | nil => simpa using hl
  | cons c rest ih =>
    have hc : c ≠ '\n' := fun hcc => hx (by simp [hcc])
    have hrest : ('\n') ∉ rest := fun hm => hx (by simp [hm])
    simp [hasDD, hc, ih hrest]

theorem hasDD_record (p : List Char) (hp : ('\n') ∉ p) :
    hasDD ((eventHeader ++ p) ++ [('\n')]) = false := by
  have hdecomp : eventHeader =
      ("event: data").toList ++ ('\n') :: ("data: ").toList := by decide
  rw [hdecomp]
  simp only [List.append_assoc, List.cons_append]
  apply hasDD_append_noNl _ (by decide)
  rw [hasDD]
  simp only [Bool.or_eq_false_iff]
  constructor
  · simp
  · apply hasDD_append_noNl _ (by decide)
    apply hasDD_append_noNl _ hp
    rfl

theorem stripHeader_encoded (p : List Char) : stripHeader (eventHeader ++ p) = p := by
  rw [stripHeader]
  rw [if_pos (List.isPrefixOf_iff_prefix.mpr (List.prefix_append _ _))]
  exact List.drop_left eventHeader p

theorem decodeRecord_encoded (p : List Char) :
    decodeRecord (eventHeader ++ p) =
      (if p = sentinel then .done
       else
         match parseChunkPayload p with
         | some c => .chunk c
         | none => .fail) := by
  simp only [decodeRecord, stripHeader_encoded]

theorem foldl_encodeRecord (p : List Char) (hp : ('\n') ∉ p)
    (out : List ChatCompletionChunk) :
    List.foldl charStep ⟨.run, [], out⟩ (encodeRecord p) =
      match decodeRecord (eventHeader ++ p) with
      | .chunk ch => ⟨.run, [], out ++ [ch]⟩
      | .done => ⟨.done, [], out⟩
      | .fail => ⟨.err, [], out⟩ := by
  have hsplit : encodeRecord p = ((eventHeader ++ p) ++ [('\n')]) ++ [('\n')] := by
    simp [encodeRecord]
  rw [hsplit, List.foldl_append]
  rw [foldl_noDD ((eventHeader ++ p) ++ [('\n')]) ⟨.run, [], out⟩ rfl
    (by simpa using hasDD_record p hp)]
  simp only [List.foldl_cons, List.foldl_nil]
  rw [charStep_trigger _ (eventHeader ++ p).reverse rfl (by simp)]
  simp only [List.reverse_reverse]
  cases hdr : decodeRecord (eventHeader ++ p) <;> simp [hdr]

theorem foldl_records (ps : List (List Char))
    (h : ∀ p ∈ ps, ('\n') ∉ p ∧ (parseChunkPayload p).isSome) :
    ∀ out, List.foldl charStep ⟨.run, [], out⟩ ((ps.map encodeRecord).flatten) =
      ⟨.run, [], out ++ ps.filterMap parseChunkPayload⟩ := by
  induction ps with
  | nil => intro out; simp
  | cons p rest ih =>
    intro out
    obtain ⟨hp, hparse⟩ := h p (by simp)
    simp only [List.map_cons, List.flatten_cons]
    rw [List.foldl_append]
    rw [foldl_encodeRecord p hp out]
    rw [decodeRecord_encoded]
    have hps : p ≠ sentinel := by
      intro hq
      subst hq
      rw [show parseChunkPayload sentinel = none from by decide] at hparse
      simp at hparse
    rw [if_neg hps]
    obtain ⟨c, hc⟩ := Option.isSome_iff_exists.mp hparse
    rw [hc]
    simp only
    rw [ih (fun q hq => h q (by simp [hq])) (out ++ [c])]
    simp [List.filterMap_cons, hc]

/-- C1: for every streaming response byte sequence and for every way of
splitting it into transport chunks (arbitrary boundaries, empty chunks,
several complete records in one chunk), the streaming decoder produces
the identical sequence of decoded chunks: any two chunkings of the same
total bytes decode to identical decoder results. -/
theorem chunking_boundary_independent (css1 css2 : List (List Char))
    (h : css1.flatten = css2.flatten) : runDecoder css1 = runDecoder css2 := by
  rw [runDecoder_flatten, runDecoder_flatten, h]

theorem chunking_boundary_independent_witness :
    (([("event: data\ndata: \x7b\"choices\":[]\x7d\n\nevent: data\ndata: [DONE]\n\n").toList] :
        List (List Char)).flatten =
      ([("event: data\ndata: \x7b\"choi").toList, [],
        ("ces\":[]\x7d\n\nevent: data\ndata: [DONE]\n\n").toList] :
        List (List Char)).flatten) ∧
    runDecoder
        [("event: data\ndata: \x7b\"choices\":[]\x7d\n\nevent: data\ndata: [DONE]\n\n").toList] =
      runDecoder
        [("event: data\ndata: \x7b\"choi").toList, [],
          ("ces\":[]\x7d\n\nevent: data\ndata: [DONE]\n\n").toList] :=
  ⟨by decide, chunking_boundary_independent _ _ (by decide)⟩

/-- C2: a streaming response whose records end with the sentinel
termination marker yields exactly the chunks decoded from the records
preceding the sentinel, in that order, and the sequence then ends
cleanly in the Done state — no further element and no error. -/
theorem sentinel_clean_termination (ps : List (List Char))
    (h : ∀ p ∈ ps, ('\n') ∉ p ∧ (parseChunkPayload p).isSome) :
    runDecoder [((ps ++ [sentinel]).map encodeRecord).flatten] =
      ⟨.done, [], ps.filterMap parseChunkPayload⟩ := by
  rw [runDecoder_flatten]
  rw [show (initState : DecState) = ⟨.run, [], []⟩ from rfl]
  simp only [List.flatten_cons, List.flatten_nil, List.append_nil]
  simp only [List.map_append, List.map_cons, List.map_nil, List.flatten_append]
  rw [List.foldl_append]
  rw [foldl_records ps h []]
  simp only [List.nil_append, List.flatten_cons, List.flatten_nil, List.append_nil]
  rw [foldl_encodeRecord sentinel (by decide) _]
  rw [decodeRecord_encoded]
  rw [if_pos rfl]

theorem sentinel_clean_termination_witness :
    (∀ p ∈ ([("\x7b\"choices\":[]\x7d").toList] : List (List Char)),
      ('\n') ∉ p ∧ (parseChunkPayload p).isSome) ∧
    runDecoder
        [(([("\x7b\"choices\":[]\x7d").toList] ++ [sentinel]).map encodeRecord).flatten] =
      ⟨.done, [],
        ([("\x7b\"choices\":[]\x7d").toList] : List (List Char)).filterMap
          parseChunkPayload⟩ :=
  ⟨by decide, sentinel_clean_termination _ (by decide)⟩

/-- C3: a streaming response containing a record whose payload is neither
the sentinel nor valid JSON for a chunk first yields every chunk decoded
from the valid records before it, then ends in the Error state at that
record; no later byte (including further complete records) is decoded. -/
theorem malformed_record_fatal (ps : List (List Char)) (bad trailing : List Char)
    (h : ∀ p ∈ ps, ('\n') ∉ p ∧ (parseChunkPayload p).isSome)
    (hb1 : ('\n') ∉ bad) (hb2 : bad ≠ sentinel)
    (hb3 : parseChunkPayload bad = none) :
    runDecoder [(ps.map encodeRecord).flatten ++ encodeRecord bad ++ trailing] =
      ⟨.err, [], ps.filterMap parseChunkPayload⟩ := by
  rw [runDecoder_flatten]
  rw [show (initState : DecState) = ⟨.run, [], []⟩ from rfl]
  simp only [List.flatten_cons, List.flatten_nil, List.append_nil]
  rw [List.foldl_append, List.foldl_append]
  rw [foldl_records ps h []]
  simp only [List.nil_append]
  rw [foldl_encodeRecord bad hb1 _]
  rw [decodeRecord_encoded, if_neg hb2, hb3]
  simp only
  rw [foldl_terminal trailing _ (Or.inr rfl)]

theorem malformed_record_fatal_witness :
    ((∀ p ∈ ([("\x7b\"choices\":[]\x7d").toList] : List (List Char)),
        ('\n') ∉ p ∧ (parseChunkPayload p).isSome) ∧
      ('\n') ∉ ("\x7boops").toList ∧ ("\x7boops").toList ≠ sentinel ∧
      parseChunkPayload (("\x7boops").toList) = none) ∧
    runDecoder
        [(([("\x7b\"choices\":[]\x7d").toList] : List (List Char)).map
            encodeRecord).flatten ++
          encodeRecord (("\x7boops").toList) ++
          ("event: data\ndata: \x7b\"choices\":[]\x7d\n\n").toList] =
      ⟨.err, [],
        ([("\x7b\"choices\":[]\x7d").toList] : List (List Char)).filterMap
          parseChunkPayload⟩ :=
  ⟨⟨by decide, by decide, by decide, by decide⟩,
    malformed_record_fatal _ _ _ (by decide) (by decide) (by decide) (by decide)⟩

/-- C4: the chunks yielded by a streaming call are in one-to-one
correspondence, in wire order, with the complete protocol records of the
byte stream: the output equals the in-order decoding of the complete
records extracted by the reference framing — one chunk per complete
record, no reordering, merging or deduplication, and the trailing
partial record is never surfaced. -/
theorem chunks_correspond_to_records (css : List (List Char)) :
    (runDecoder css).out = (processRecords (framesOf css.flatten).1).1 := by
  rw [runDecoder_flatten]
  have h := run_frames css.flatten.length css.flatten (le_refl _) []
  rw [show (initState : DecState) = ⟨.run, [], []⟩ from rfl]
  rw [h]
  rcases hp : processRecords (framesOf css.flatten).1 with ⟨cs, mo⟩
  cases mo <;> simp

theorem expectLit_self (l : List Char) : ∀ rest, expectLit l (l ++ rest) = some rest := by
  induction l with
  | nil => intro rest; rfl
  | cons c t ih => intro rest; simp [expectLit, ih]

theorem skipWs_append (l rest : List Char) (h : litOk l = true) :
    skipWs (l ++ rest) = l ++ rest := by
  cases l with
  | nil => simp [litOk] at h
  | cons c t =>
    simp only [litOk, Bool.not_eq_eq_eq_not, Bool.not_true, Bool.or_eq_false_iff,
      decide_eq_false_iff_not] at h
    rw [List.cons_append, skipWs]
    rw [if_neg (by tauto)]

theorem expectLit_skipWs (l : List Char) (rest : List Char) (h : litOk l = true) :
    expectLit l (skipWs (l ++ rest)) = some rest := by
  rw [skipWs_append l rest h, expectLit_self]

theorem parseStringBody_rt (s : List Char) (h : ∀ c ∈ s, c ≠ '"' ∧ c ≠ '\\') :
    ∀ rest, parseStringBody (s ++ (['"'] ++ rest)) = some (s, rest) := by
  induction s with
  | nil => intro rest; simp [parseStringBody]
  | cons c t ih =>
    intro rest
    obtain ⟨h1, h2⟩ := h c (by simp)
    simp only [List.cons_append, List.singleton_append, parseStringBody]
    rw [if_neg h1, if_neg h2]
    have ih2 := ih (fun c2 hc2 => h c2 (by simp [hc2])) rest
    simp only [List.singleton_append] at ih2
    simp only [List.append_eq, List.nil_append]
    rw [ih2]

theorem String_mk_toList (s : String) : String.mk s.toList = s := rfl

theorem String_toList_mk (l : List Char) : (String.mk l).toList = l := rfl

theorem parseMessageObj_rt (m : Message)
    (hr : ∀ c ∈ m.role.toList, c ≠ '"' ∧ c ≠ '\\')
    (hc : ∀ c ∈ m.content.toList, c ≠ '"' ∧ c ≠ '\\') (trail : List Char) :
    parseMessageObj (encodeMessageChars m ++ trail) = some (m, trail) := by
  simp only [encodeMessageChars, encodeStringLit, List.append_assoc]
  rw [parseMessageObj]
  rw [expectLit_skipWs (['\x7b']) _ (by decide)]
  simp only []
  rw [expectLit_skipWs (("\"role\"").toList) _ (by decide)]
  simp only []
  rw [expectLit_skipWs ([':']) _ (by decide)]
  simp only []
  rw [expectLit_skipWs (['"']) _ (by decide)]
  simp only []
  rw [parseStringBody_rt m.role.toList hr _]
  simp only []
  rw [expectLit_skipWs ([',']) _ (by decide)]
  simp only []
  rw [expectLit_skipWs (("\"content\"").toList) _ (by decide)]
  simp only []
  rw [expectLit_skipWs ([':']) _ (by decide)]
  simp only []
  rw [expectLit_skipWs (['"']) _ (by decide)]
  simp only []
  rw [parseStringBody_rt m.content.toList hc _]
  simp only []
  rw [expectLit_skipWs (['\x7d']) _ (by decide)]
  simp [String_mk_toList]

theorem parseChatChoiceElem_rt (c : ChatChoice)
    (hr : ∀ ch ∈ c.message.role.toList, ch ≠ '"' ∧ ch ≠ '\\')
    (hc : ∀ ch ∈ c.message.content.toList, ch ≠ '"' ∧ ch ≠ '\\')
    (trail : List Char) :
    parseChatChoiceElem (encodeChatChoiceChars c ++ trail) = some (c, trail) := by
  simp only [encodeChatChoiceChars, List.append_assoc]
  rw [parseChatChoiceElem]
  rw [expectLit_skipWs (['\x7b']) _ (by decide)]
  simp only []
  rw [expectLit_skipWs (("\"message\"").toList) _ (by decide)]
  simp only []
  rw [expectLit_skipWs ([':']) _ (by decide)]
  simp only []
  rw [parseMessageObj_rt c.message hr hc _]
  simp only []
  rw [expectLit_skipWs (['\x7d']) _ (by decide)]

theorem parseElems_chat_rt (as : List ChatChoice) : as ≠ [] →
    (∀ a ∈ as, (∀ ch ∈ a.message.role.toList, ch ≠ '"' ∧ ch ≠ '\\') ∧
      (∀ ch ∈ a.message.content.toList, ch ≠ '"' ∧ ch ≠ '\\')) →
    ∀ (fuel : Nat), as.length ≤ fuel → ∀ (trail : List Char),
    parseElems parseChatChoiceElem fuel
      (encodeChatChoicesChars as ++ ([']'] ++ trail)) = some (as, trail) := by
  induction as with
  | nil => intro hne; exact absurd rfl hne
  | cons a rest ih =>
    intro _ h fuel hf trail
    cases fuel with
    | zero => simp at hf
    | succ f =>
      cases rest with
      | nil =>
        simp only [encodeChatChoicesChars]
        rw [parseElems]
        rw [parseChatChoiceElem_rt a (h a (by simp)).1 (h a (by simp)).2 _]
        simp only []
        rw [skipWs_append ([']']) trail (by decide)]
        simp [List.singleton_append]
      | cons b rest2 =>
        simp only [encodeChatChoicesChars, List.append_assoc]
        rw [parseElems]
        rw [parseChatChoiceElem_rt a (h a (by simp)).1 (h a (by simp)).2 _]
        simp only []
        rw [skipWs_append ([',']) _ (by decide)]
        simp only [List.singleton_append]
        have ih2 := ih (by simp) (fun q hq => h q (by simp [hq])) f
          (by simp at hf ⊢; omega) trail
        simp only [List.singleton_append] at ih2
        rw [ih2]

theorem choices_length_le (as : List ChatChoice) :
    as.length ≤ (encodeChatChoicesChars as).length := by
  induction as with
  | nil => simp [encodeChatChoicesChars]
  | cons a rest ih =>
    cases rest with
    | nil => simp [encodeChatChoicesChars, encodeChatChoiceChars]
    | cons b rest2 =>
      simp only [encodeChatChoicesChars, List.length_append, List.length_cons] at ih ⊢
      omega

theorem decodeChatCompletion_rt (v : ChatCompletion) (hwf : v.wf) :
    decodeChatCompletion (encodeChatCompletion v) = some v := by
  obtain ⟨cs⟩ := v
  simp only [decodeChatCompletion, encodeChatCompletion, String_toList_mk,
    List.append_assoc]
  rw [parseArrFieldObj]
  rw [expectLit_skipWs (['\x7b']) _ (by decide)]
  simp only []
  rw [show ('"' :: ("choices").toList ++
      (['"'] ++ ([':'] ++ (['['] ++ (encodeChatChoicesChars cs ++
        ([']'] ++ (['\x7d'] : List Char))))))) =
    ('"' :: ("choices").toList ++ ['"']) ++ ([':'] ++ (['['] ++
      (encodeChatChoicesChars cs ++ ([']'] ++ ['\x7d'])))) from by simp]
  rw [expectLit_skipWs ('"' :: ("choices").toList ++ ['"']) _ (by decide)]
  simp only []
  rw [expectLit_skipWs ([':']) _ (by decide)]
  simp only []
  rw [parseArray]
  rw [expectLit_skipWs (['[']) _ (by decide)]
  simp only []
  cases cs with
  | nil =>
    simp only [encodeChatChoicesChars, List.nil_append]
    rw [skipWs_append ([']']) _ (by decide)]
    rw [show expectLit ([']']) (([']'] : List Char) ++ (['\x7d'] : List Char)) =
      some (['\x7d']) from rfl]
    simp only []
    rw [show skipWs (['\x7d']) = (['\x7d'] : List Char) from by decide]
    rw [show expectLit (['\x7d']) ((['\x7d'] : List Char)) = some [] from rfl]
    simp [skipWs]
  | cons a rest =>
    have hhd : encodeChatChoicesChars (a :: rest) ++ ([']'] ++ (['\x7d'] : List Char)) =
        '\x7b' :: ((encodeChatChoicesChars (a :: rest)).tail ++ ([']'] ++ ['\x7d'])) := by
      cases rest <;>
        simp [encodeChatChoicesChars, encodeChatChoiceChars, List.append_assoc]
    rw [hhd]
    rw [show skipWs ('\x7b' :: ((encodeChatChoicesChars (a :: rest)).tail ++
      ([']'] ++ (['\x7d'] : List Char)))) = '\x7b' :: ((encodeChatChoicesChars
      (a :: rest)).tail ++ ([']'] ++ ['\x7d'])) from by rw [skipWs]; rw [if_neg (by decide)]]
    rw [show expectLit ([']']) ('\x7b' :: ((encodeChatChoicesChars (a :: rest)).tail ++
      ([']'] ++ (['\x7d'] : List Char)))) = none from by rw [expectLit]; rw [if_neg (by decide)]]
    simp only []
    rw [← hhd]
    have hwf2 : ∀ q ∈ a :: rest, (∀ ch ∈ q.message.role.toList, ch ≠ '"' ∧ ch ≠ '\\') ∧
        (∀ ch ∈ q.message.content.toList, ch ≠ '"' ∧ ch ≠ '\\') := by
      intro q hq
      exact ⟨(hwf q hq).1, (hwf q hq).2⟩
    have hlen : (a :: rest).length ≤
        (['\x7b'] ++ ('"' :: ("choices").toList ++ ['"'] ++ ([':'] ++ (['['] ++
          (encodeChatChoicesChars (a :: rest) ++
            ([']'] ++ ['\x7d'])))))).length + 1 := by
      have h1 := choices_length_le (a :: rest)
      simp only [List.length_append, List.length_cons] at h1 ⊢
      omega
    rw [parseElems_chat_rt (a :: rest) (by simp) hwf2 _ hlen (['\x7d'])]
    simp only []
    rw [show skipWs (['\x7d']) = (['\x7d'] : List Char) from by decide]
    rw [show expectLit (['\x7d']) ((['\x7d'] : List Char)) = some [] from rfl]
    simp [skipWs]

/-- C7: every non-streaming call receiving HTTP 200 with a well-formed
JSON body returns Ok of the decoded typed result whose fields equal the
body's fields exactly — encoding a known well-formed ChatCompletion and
parsing it back yields an equal value and `create_chat` returns exactly
it; and for each of the five non-streaming operations (`create_chat`,
`create_completion`, `list_models`, `create_embeddings`,
`create_image`), a 200-status body that decodes is returned as decoded
(for `list_models` its `data` vector, for `create_image` its payload
projection) while a body that fails to decode yields an error, never a
partial result. -/
theorem success_decode_roundtrip (v : ChatCompletion) (hwf : v.wf)
    (res : HttpResponse) (h200 : res.status = 200)
    (hbody : res.body = encodeChatCompletion v) :
    decodeChatCompletion (encodeChatCompletion v) = some v ∧
    create_chat_handle res = .ok v ∧
    (∀ res2 : HttpResponse, res2.status = 200 →
      decodeChatCompletion res2.body = none →
      create_chat_handle res2 = .error .decodeError) ∧
    (∀ res3 : HttpResponse, res3.status = 200 → ∀ r : CompletionResponse,
      decodeCompletionResponse res3.body = some r →
      create_completion_handle res3 = .ok r) ∧
    (∀ res3 : HttpResponse, res3.status = 200 →
      decodeCompletionResponse res3.body = none →
      create_completion_handle res3 = .error .decodeError) ∧
    (∀ res4 : HttpResponse, res4.status = 200 → ∀ r : ListModelsResponse,
      decodeListModels res4.body = some r →
      list_models_handle res4 = .ok r.data) ∧
    (∀ res4 : HttpResponse, res4.status = 200 →
      decodeListModels res4.body = none →
      list_models_handle res4 = .error .decodeError) ∧
    (∀ res5 : HttpResponse, res5.status = 200 → ∀ r : EmbeddingsResponse,
      decodeEmbeddingsResponse res5.body = some r →
      create_embeddings_handle res5 = .ok r) ∧
    (∀ res5 : HttpResponse, res5.status = 200 →
      decodeEmbeddingsResponse res5.body = none →
      create_embeddings_handle res5 = .error .decodeError) ∧
    (∀ res6 : HttpResponse, res6.status = 200 → ∀ r : ImageResponse,
      decodeImageResponse res6.body = some r →
      create_image_handle res6 = .ok (r.data.map imagePayload)) ∧
    (∀ res6 : HttpResponse, res6.status = 200 →
      decodeImageResponse res6.body = none →
      create_image_handle res6 = .error .decodeError) := by
  have hrt := decodeChatCompletion_rt v hwf
  refine ⟨hrt, ?_, ?_, ?_, ?_, ?_, ?_, ?_, ?_, ?_, ?_⟩
  · simp [create_chat_handle, h200, hbody, hrt]
  · intro res2 h2 hd
    simp [create_chat_handle, h2, hd]
  · intro res3 h3 r hd
    simp [create_completion_handle, h3, hd]
  · intro res3 h3 hd
    simp [create_completion_handle, h3, hd]
  · intro res4 h4 r hd
    simp [list_models_handle, h4, hd]
  · intro res4 h4 hd
    simp [list_models_handle, h4, hd]
  · intro res5 h5 r hd
    simp [create_embeddings_handle, h5, hd]
  · intro res5 h5 hd
    simp [create_embeddings_handle, h5, hd]
  · intro res6 h6 r hd
    simp [create_image_handle, h6, hd]
  · intro res6 h6 hd
    simp [create_image_handle, h6, hd]

theorem success_decode_roundtrip_witness :
    ((⟨[⟨⟨("assistant"), ("Hello")⟩⟩]⟩ : ChatCompletion).wf ∧
      (⟨200, encodeChatCompletion (⟨[⟨⟨("assistant"), ("Hello")⟩⟩]⟩ : ChatCompletion)⟩ :
        HttpResponse).status = 200) ∧
    decodeChatCompletion
        (encodeChatCompletion (⟨[⟨⟨("assistant"), ("Hello")⟩⟩]⟩ : ChatCompletion)) =
      some (⟨[⟨⟨("assistant"), ("Hello")⟩⟩]⟩ : ChatCompletion) ∧
    create_chat_handle
        ⟨200, encodeChatCompletion (⟨[⟨⟨("assistant"), ("Hello")⟩⟩]⟩ : ChatCompletion)⟩ =
      .ok (⟨[⟨⟨("assistant"), ("Hello")⟩⟩]⟩ : ChatCompletion) :=
  ⟨⟨by unfold ChatCompletion.wf plainStr; decide, rfl⟩,
    (success_decode_roundtrip (⟨[⟨⟨("assistant"), ("Hello")⟩⟩]⟩ : ChatCompletion)
      (by unfold ChatCompletion.wf plainStr; decide)
      ⟨200, encodeChatCompletion (⟨[⟨⟨("assistant"), ("Hello")⟩⟩]⟩ : ChatCompletion)⟩
      rfl rfl).1,
    (success_decode_roundtrip (⟨[⟨⟨("assistant"), ("Hello")⟩⟩]⟩ : ChatCompletion)
      (by unfold ChatCompletion.wf plainStr; decide)
      ⟨200, encodeChatCompletion (⟨[⟨⟨("assistant"), ("Hello")⟩⟩]⟩ : ChatCompletion)⟩
      rfl rfl).2.1⟩

/-- C5: for every ChatArguments value passed to `create_chat_stream`,
whatever stream field the caller supplied (`some true`, `some false`, or
`none`), the request body sent carries the streaming flag set to
`Some(true)`. -/
theorem stream_flag_forced (c : Client) (args : ChatArguments)
    (s : Option Bool) (opt_url_path : Option String) :
    (create_chat_stream_request c { args with stream := s }
      opt_url_path).body.stream = some true := rfl

/-- C6: for every client operation, whenever the HTTP response status is
not 200, the call returns an error whose message is the raw response
body text verbatim. -/
theorem non_success_error_is_raw_body (res : HttpResponse)
    (h : res.status ≠ 200) (byteChunks : List (List Char)) :
    list_models_handle res = .error (.apiError res.body) ∧
    create_chat_handle res = .error (.apiError res.body) ∧
    create_chat_stream_handle res byteChunks = .error (.apiError res.body) ∧
    create_completion_handle res = .error (.apiError res.body) ∧
    create_embeddings_handle res = .error (.apiError res.body) ∧
    create_image_handle res = .error (.apiError res.body) := by
  refine ⟨?_, ?_, ?_, ?_, ?_, ?_⟩ <;>
    simp [list_models_handle, create_chat_handle, create_chat_stream_handle,
      create_completion_handle, create_embeddings_handle, create_image_handle, h]

theorem non_success_error_is_raw_body_witness :
    ((404 : Nat) ≠ 200) ∧
    (list_models_handle ⟨404, ("not found")⟩ =
        .error (.apiError ("not found")) ∧
      create_chat_handle ⟨404, ("not found")⟩ =
        .error (.apiError ("not found")) ∧
      create_chat_stream_handle ⟨404, ("not found")⟩ [] =
        .error (.apiError ("not found")) ∧
      create_completion_handle ⟨404, ("not found")⟩ =
        .error (.apiError ("not found")) ∧
      create_embeddings_handle ⟨404, ("not found")⟩ =
        .error (.apiError ("not found")) ∧
      create_image_handle ⟨404, ("not found")⟩ =
        .error (.apiError ("not found"))) :=
  ⟨by decide, non_success_error_is_raw_body ⟨404, ("not found")⟩ (by decide) []⟩

/-- C8: for every operation, passing `None` as the path override uses
that operation's documented default path, and passing `Some p` uses path
`p`. -/
theorem path_override_resolution (c : Client) (p : String) :
    (list_models_url c none).path = ("/v1/models") ∧
    (list_models_url c (some p)).path = p ∧
    (create_chat_url c none).path = ("/v1/chat/completions") ∧
    (create_chat_url c (some p)).path = p ∧
    (create_chat_stream_url c none).path = ("/v1/chat/completions") ∧
    (create_chat_stream_url c (some p)).path = p ∧
    (create_completion_url c none).path = ("/v1/completions") ∧
    (create_completion_url c (some p)).path = p ∧
    (create_embeddings_url c none).path = ("/v1/embeddings") ∧
    (create_embeddings_url c (some p)).path = p ∧
    (create_image_url c none).path = ("/v1/images/generations") ∧
    (create_image_url c (some p)).path = p :=
  ⟨rfl, rfl, rfl, rfl, rfl, rfl, rfl, rfl, rfl, rfl, rfl, rfl⟩

/-- C9: a successful (HTTP 200) `create_image` call returns exactly one
string per image object of the response, in response order, each being
the inner payload of its object; the variant tag is discarded, so a URL
result and a base64 result with the same inner string are
indistinguishable in the return value. -/
theorem image_result_projection (res : HttpResponse) (r : ImageResponse)
    (h200 : res.status = 200) (hd : decodeImageResponse res.body = some r) :
    create_image_handle res = .ok (r.data.map imagePayload) ∧
    (r.data.map imagePayload).length = r.data.length ∧
    (∀ s, imagePayload (ImageObject.url s) = s) ∧
    (∀ s, imagePayload (ImageObject.base64JSON s) = s) := by
  refine ⟨?_, by simp, fun s => rfl, fun s => rfl⟩
  simp [create_image_handle, h200, hd]

theorem image_result_projection_witness :
    ((⟨200, ("\x7b\"data\":[\x7b\"url\":\"http://a\"\x7d,\x7b\"b64_json\":\"QUJD\"\x7d]\x7d")⟩ :
        HttpResponse).status = 200 ∧
      decodeImageResponse
          ("\x7b\"data\":[\x7b\"url\":\"http://a\"\x7d,\x7b\"b64_json\":\"QUJD\"\x7d]\x7d") =
        some ⟨[ImageObject.url ("http://a"), ImageObject.base64JSON ("QUJD")]⟩) ∧
    (create_image_handle
        ⟨200, ("\x7b\"data\":[\x7b\"url\":\"http://a\"\x7d,\x7b\"b64_json\":\"QUJD\"\x7d]\x7d")⟩ =
      .ok (((⟨[ImageObject.url ("http://a"), ImageObject.base64JSON ("QUJD")]⟩ :
        ImageResponse)).data.map imagePayload) ∧
      (((⟨[ImageObject.url ("http://a"), ImageObject.base64JSON ("QUJD")]⟩ :
        ImageResponse)).data.map imagePayload).length =
        ((⟨[ImageObject.url ("http://a"), ImageObject.base64JSON ("QUJD")]⟩ :
        ImageResponse)).data.length ∧
      (∀ s, imagePayload (ImageObject.url s) = s) ∧
      (∀ s, imagePayload (ImageObject.base64JSON s) = s)) :=
  ⟨⟨rfl, by decide⟩,
    image_result_projection _ _ rfl (by decide)⟩

/-- C10: the request URL is the configured base URL with its entire path
replaced by the resolved operation path — the base URL's own path
component (including the `/v1/models` path of the default base URL) is
discarded, and only its scheme, host and port are kept. -/
theorem base_url_path_discarded (k : String) (base : Url) (q : String)
    (opt : Option String) :
    list_models_url ⟨k, { base with path := q }⟩ opt =
      list_models_url ⟨k, base⟩ opt ∧
    create_chat_url ⟨k, { base with path := q }⟩ opt =
      create_chat_url ⟨k, base⟩ opt ∧
    create_chat_stream_url ⟨k, { base with path := q }⟩ opt =
      create_chat_stream_url ⟨k, base⟩ opt ∧
    create_completion_url ⟨k, { base with path := q }⟩ opt =
      create_completion_url ⟨k, base⟩ opt ∧
    create_embeddings_url ⟨k, { base with path := q }⟩ opt =
      create_embeddings_url ⟨k, base⟩ opt ∧
    create_image_url ⟨k, { base with path := q }⟩ opt =
      create_image_url ⟨k, base⟩ opt ∧
    (list_models_url ⟨k, base⟩ opt).scheme = base.scheme ∧
    (list_models_url ⟨k, base⟩ opt).host = base.host ∧
    (list_models_url ⟨k, base⟩ opt).port = base.port ∧
    (DEFAULT_BASE_URL).path = ("/v1/models") ∧
    (create_chat_url (Client.new k) none).path = ("/v1/chat/completions") :=
  ⟨rfl, rfl, rfl, rfl, rfl, rfl, rfl, rfl, rfl, rfl, rfl⟩

end OpenAIRust
